import Mathlib

/-!
Shallow embedding of the HR attrition dashboard (`attrition_dashboard.py`):
the employee record schema, the sidebar filter criteria, the row filter
(`filtered_df`), the summary metrics (total / attrition rate / mean
satisfaction / mean age), the grouped-count aggregates feeding charts 4 and 8,
the PDF report payload (`generate_pdf`), and the CSV download surface
(`to_csv(index=False)` together with a standard CSV re-parser).

Numeric columns are embedded as `Nat` (all relevant columns of the dataset are
non-negative integers).  A pandas `Series.mean()` over an empty selection
yields NaN; means are therefore embedded as `Option ℚ`, with `none` standing
for NaN and `some q` for the exact rational mean.
-/

/-- One row of the HR dataset, restricted to the columns the dashboard logic
reads.  Field names follow the CSV column names used by the source. -/
structure Employee where
  department : String
  jobRole : String
  educationField : String
  overTime : String
  attrition : String
  workLifeBalance : Nat
  jobLevel : Nat
  age : Nat
  monthlyIncome : Nat
  jobSatisfaction : Nat
  distanceFromHome : Nat
  yearsAtCompany : Nat
  employeeNumber : Nat
deriving DecidableEq, Repr

/-- The sidebar state: `search_id` text box, three multiselects and the
salary-range slider `(salary_range[0], salary_range[1])`. -/
structure Criteria where
  searchId : String
  deptFilter : List String
  roleFilter : List String
  eduFilter : List String
  salaryLo : Nat
  salaryHi : Nat
deriving DecidableEq, Repr

/-! ### Decimal rendering of the integer columns

`df["EmployeeNumber"].astype(str)` and `to_csv` both render integers in
standard decimal notation.  We embed that rendering with a fuel-indexed
recursion (kernel-reducible) and prove it invertible. -/

/-- Decimal digits of `n`, most significant first; empty for `n = 0`.
`fuel` bounds the recursion depth. -/
def natToCharsGo : Nat → Nat → List Char
  | 0, _ => []
  | fuel + 1, n =>
      if n = 0 then []
      else natToCharsGo fuel (n / 10) ++ [Nat.digitChar (n % 10)]

/-- Standard decimal rendering of a natural number (`"0"` for zero). -/
def natToChars (n : Nat) : List Char :=
  if n = 0 then ['0'] else natToCharsGo (n + 1) n

/-- The string form of an integer column entry (`astype(str)` / CSV cell). -/
def natToStr (n : Nat) : String := String.mk (natToChars n)

/-- Numeric value of a decimal digit character. -/
def digVal (c : Char) : Nat := c.toNat - 48

/-- Parse a non-empty all-digit character list as a decimal natural. -/
def charsToNat (l : List Char) : Option Nat :=
  if l ≠ [] ∧ l.all Char.isDigit then
    some (l.foldl (fun a c => a * 10 + digVal c) 0)
  else none

/-- Parse a string as a decimal natural. -/
def strToNat (s : String) : Option Nat := charsToNat s.data

/-! ### The filter engine (`filtered_df`, source lines 108–117) -/

/-- The conjunction of the four non-identifier predicates: `isin` membership
for the three categorical multiselects and the inclusive `between` for the
salary slider. -/
def passesFilters (c : Criteria) (r : Employee) : Bool :=
  decide (r.department ∈ c.deptFilter) &&
  decide (r.jobRole ∈ c.roleFilter) &&
  decide (r.educationField ∈ c.eduFilter) &&
  decide (c.salaryLo ≤ r.monthlyIncome) &&
  decide (r.monthlyIncome ≤ c.salaryHi)

/-- The filter `filtered_df`: the combined filter first, then — when the search box is
non-empty (Python truthiness of `search_id`) — the identifier override, which
re-filters the full record set by `EmployeeNumber.astype(str) == search_id`
and ignores every other criterion. -/
def filtered_df (df : List Employee) (c : Criteria) : List Employee :=
  if c.searchId = "" then df.filter (passesFilters c)
  else df.filter (fun r => decide (natToStr r.employeeNumber = c.searchId))

/-! ### Summary metrics (source lines 122–132 and 324–327) -/

/-- Pandas `Series.mean()`: NaN (`none`) on an empty selection, else the exact mean. -/
def seriesMean (xs : List ℚ) : Option ℚ :=
  if xs.length = 0 then none else some (xs.sum / (xs.length : ℚ))

/-- The rate `attr_rate = (filtered_df['Attrition'] == 'Yes').mean() * 100`. -/
def attr_rate (rows : List Employee) : Option ℚ :=
  (seriesMean (rows.map (fun r => if r.attrition = "Yes" then (1 : ℚ) else 0))).map
    (fun m => m * 100)

/-- The mean `filtered_df["JobSatisfaction"].mean()`. -/
def avg_sat (rows : List Employee) : Option ℚ :=
  seriesMean (rows.map (fun r => (r.jobSatisfaction : ℚ)))

/-- The mean `filtered_df["Age"].mean()`. -/
def avg_age (rows : List Employee) : Option ℚ :=
  seriesMean (rows.map (fun r => (r.age : ℚ)))

/-- The scalar summary block: `total`, attrition rate, mean satisfaction,
mean age, as computed at the top of the dashboard and again in
`generate_pdf`. -/
structure SummaryMetrics where
  total : Nat
  attritionRate : Option ℚ
  avgSatisfaction : Option ℚ
  avgAge : Option ℚ
deriving DecidableEq, Repr

/-- The contract `summarize`: the summary computation over a (filtered) view. -/
def summarize (rows : List Employee) : SummaryMetrics :=
  { total := rows.length
    attritionRate := attr_rate rows
    avgSatisfaction := avg_sat rows
    avgAge := avg_age rows }

/-! ### The PDF report payload (`generate_pdf`, source lines 300–369)

Rendering (fonts, margins, spacers) is presentation; the payload is the
structured content: title, the four scalar metrics, the hardcoded insight
strings, and the conclusion paragraph. -/

structure Report where
  title : String
  total : Nat
  attritionRate : Option ℚ
  avgAge : Option ℚ
  avgSat : Option ℚ
  insights : List String
  conclusion : String
deriving DecidableEq, Repr

/-- The structured content `generate_pdf` places into the document, as a
function of the filtered view it receives. -/
def generate_pdf (rows : List Employee) : Report :=
  { title := "HR Employees Attrition Analysis Report"
    total := rows.length
    attritionRate := attr_rate rows
    avgAge := avg_age rows
    avgSat := avg_sat rows
    insights := [
      "Employees working overtime show significantly higher attrition.",
      "Highest churn observed in the first 2 years of employment.",
      "Lower monthly income strongly correlates with employee exit.",
      "Longer distance from home increases attrition risk.",
      "Junior-level roles require focused retention strategies."]
    conclusion := "Reducing overtime workload and improving engagement for junior employees should be the top priorities to lower attrition in the next quarter." }

/-! ### Grouped count aggregates (source lines 165 and 197)

`df.groupby([k1, k2]).size()` with the default `sort=True` emits one row per
distinct key pair, in ascending lexicographic key order, carrying the group
size. -/

/-- Lexicographic order on key pairs (pandas multi-key group sort order). -/
def lexLE {α β : Type} [LinearOrder α] [LinearOrder β] (a b : α × β) : Prop :=
  a.1 < b.1 ∨ (a.1 = b.1 ∧ a.2 ≤ b.2)

instance {α β : Type} [LinearOrder α] [LinearOrder β] :
    DecidableRel (lexLE (α := α) (β := β)) := fun a b => by
  unfold lexLE
  exact inferInstance

instance {α β : Type} [LinearOrder α] [LinearOrder β] :
    IsTotal (α × β) lexLE := by
  constructor
  intro a b
  rcases lt_trichotomy a.1 b.1 with h | h | h
  · exact Or.inl (Or.inl h)
  · rcases le_total a.2 b.2 with h2 | h2
    · exact Or.inl (Or.inr ⟨h, h2⟩)
    · exact Or.inr (Or.inr ⟨h.symm, h2⟩)
  · exact Or.inr (Or.inl h)

instance {α β : Type} [LinearOrder α] [LinearOrder β] :
    IsTrans (α × β) lexLE := by
  constructor
  intro a b c hab hbc
  rcases hab with h1 | ⟨h1, h1'⟩
  · rcases hbc with h2 | ⟨h2, h2'⟩
    · exact Or.inl (h1.trans h2)
    · exact Or.inl (h2 ▸ h1)
  · rcases hbc with h2 | ⟨h2, h2'⟩
    · exact Or.inl (h1 ▸ h2)
    · exact Or.inr ⟨h1.trans h2, h1'.trans h2'⟩

/-- Pandas `groupby(keys).size().reset_index(...)`: distinct key values in ascending
order, each paired with the number of rows having that key. -/
def groupCountsBy {κ : Type} [DecidableEq κ] (le : κ → κ → Prop) [DecidableRel le]
    (key : Employee → κ) (rows : List Employee) : List (κ × Nat) :=
  (List.insertionSort le (rows.map key).dedup).map
    (fun k => (k, rows.countP (fun r => decide (key r = k))))

/-- The chart-4 aggregate `ot_data = filtered_df.groupby(['OverTime', 'Attrition']).size()...`. -/
def ot_data (rows : List Employee) : List ((String × String) × Nat) :=
  groupCountsBy lexLE (fun r => (r.overTime, r.attrition)) rows

/-- The chart-8 aggregate:
`filtered_df.groupby(['YearsAtCompany', 'Attrition']).size()...`. -/
def yac_data (rows : List Employee) : List ((Nat × String) × Nat) :=
  groupCountsBy lexLE (fun r => (r.yearsAtCompany, r.attrition)) rows

/-! ### The per-interaction recomputation (reactive rerun of the script)

On every widget change the script reruns: the cached raw dataframe is
re-used, `filtered_df` and the metrics are recomputed from it. -/

structure DashState where
  raw : List Employee
  filtered : List Employee
  metrics : SummaryMetrics
deriving DecidableEq, Repr

/-- One rerun of the dashboard body under criteria `c`. -/
def rerun (s : DashState) (c : Criteria) : DashState :=
  { raw := s.raw
    filtered := filtered_df s.raw c
    metrics := summarize (filtered_df s.raw c) }

/-! ### The CSV download surface (source lines 290 and 295)

`df.to_csv(index=False)` serializes the record set as comma-separated text:
a header row of column names, one row per record, rows terminated by a line
feed, and minimal quoting — a cell is wrapped in double quotes exactly when
it contains a comma, a double quote, a line feed or a carriage return, with
embedded double quotes doubled.  The re-import direction of the download
contract is not code in this repository; `parseCsv` below is therefore a
standard CSV reader for the same dialect, modelled from the spec. -/

/-- Does this cell need quoting under minimal quoting? -/
def needsQuoteL : List Char → Bool
  | [] => false
  | c :: rest => (c = ',' || c = '"' || c = '\n' || c = '\r') || needsQuoteL rest

/-- Double every embedded double quote. -/
def escapeL : List Char → List Char
  | [] => []
  | c :: rest => if c = '"' then '"' :: '"' :: escapeL rest else c :: escapeL rest

/-- Serialize one cell with minimal quoting. -/
def renderFieldL (l : List Char) : List Char :=
  if needsQuoteL l then '"' :: (escapeL l ++ ['"']) else l

/-- Serialize one row: cells joined by commas. -/
def renderRecordL : List (List Char) → List Char
  | [] => []
  | [f] => renderFieldL f
  | f :: fs => renderFieldL f ++ ',' :: renderRecordL fs

/-- Serialize the rows: each row terminated by a line feed. -/
def joinRecsL : List (List (List Char)) → List Char
  | [] => []
  | r :: rs => renderRecordL r ++ '\n' :: joinRecsL rs

/-- Modelled from the spec: read the remainder of a quoted cell (the opening
quote already consumed); a doubled quote is an escaped quote, a lone quote
closes the cell. -/
def parseQuoted : List Char → Option (List Char × List Char)
  | [] => none
  | [c] => if c = '"' then some ([], []) else none
  | c :: c2 :: rest =>
      if c = '"' then
        if c2 = '"' then (parseQuoted rest).map (fun p => ('"' :: p.1, p.2))
        else some ([], c2 :: rest)
      else (parseQuoted (c2 :: rest)).map (fun p => (c :: p.1, p.2))

/-- Modelled from the spec: read an unquoted cell, which extends to the next
comma, line feed, or end of input. -/
def parseBare : List Char → List Char × List Char
  | [] => ([], [])
  | c :: rest =>
      if c = ',' || c = '\n' then ([], c :: rest)
      else
        let p := parseBare rest
        (c :: p.1, p.2)

/-- Modelled from the spec: read one cell. -/
def parseField : List Char → Option (List Char × List Char)
  | [] => some ([], [])
  | c :: rest =>
      if c = '"' then parseQuoted rest else some (parseBare (c :: rest))

/-- Modelled from the spec: read one row (cells separated by commas), leaving
the trailing line feed, if any, unconsumed.  `fuel` bounds the recursion. -/
def parseRecordAux : Nat → List Char → Option (List String × List Char)
  | 0, _ => none
  | fuel + 1, l =>
      match parseField l with
      | none => none
      | some (f, rest) =>
          match rest with
          | [] => some ([String.mk f], [])
          | c :: r =>
              if c = ',' then
                match parseRecordAux fuel r with
                | none => none
                | some (fs, r2) => some (String.mk f :: fs, r2)
              else some ([String.mk f], c :: r)

/-- Modelled from the spec: read one row. -/
def parseRecord (l : List Char) : Option (List String × List Char) :=
  parseRecordAux (l.length + 1) l

/-- Modelled from the spec: read all rows of line-feed-terminated CSV text.
`fuel` bounds the recursion. -/
def parseRecsAux : Nat → List Char → Option (List (List String))
  | 0, _ => none
  | fuel + 1, l =>
      if l = [] then some []
      else
        match parseRecord l with
        | none => none
        | some (fs, rest) =>
            match rest with
            | [] => some [fs]
            | c :: r =>
                if c = '\n' then (parseRecsAux fuel r).map (fun rs => fs :: rs)
                else none

/-- Modelled from the spec: read all rows. -/
def parseRecs (l : List Char) : Option (List (List String)) :=
  parseRecsAux (l.length + 1) l

/-- The column schema of the export, in the order fixed by the data model. -/
def headerFields : List String :=
  ["Department", "JobRole", "EducationField", "OverTime", "Attrition",
   "WorkLifeBalance", "JobLevel", "Age", "MonthlyIncome", "JobSatisfaction",
   "DistanceFromHome", "YearsAtCompany", "EmployeeNumber"]

/-- The CSV cells of one record, in schema order. -/
def toFields (r : Employee) : List String :=
  [r.department, r.jobRole, r.educationField, r.overTime, r.attrition,
   natToStr r.workLifeBalance, natToStr r.jobLevel, natToStr r.age,
   natToStr r.monthlyIncome, natToStr r.jobSatisfaction,
   natToStr r.distanceFromHome, natToStr r.yearsAtCompany,
   natToStr r.employeeNumber]

/-- Modelled from the spec: rebuild a record from a parsed row of cells. -/
def parseEmployee (fs : List String) : Option Employee :=
  match fs with
  | [dept, role, edu, ot, att, wlb, jl, ag, mi, js, dfh, yac, en] =>
      match strToNat wlb, strToNat jl, strToNat ag, strToNat mi, strToNat js,
            strToNat dfh, strToNat yac, strToNat en with
      | some wlb, some jl, some ag, some mi, some js,
        some dfh, some yac, some en =>
          some { department := dept, jobRole := role, educationField := edu,
                 overTime := ot, attrition := att, workLifeBalance := wlb,
                 jobLevel := jl, age := ag, monthlyIncome := mi,
                 jobSatisfaction := js, distanceFromHome := dfh,
                 yearsAtCompany := yac, employeeNumber := en }
      | _, _, _, _, _, _, _, _ => none
  | _ => none

/-- Modelled from the spec: rebuild all records from parsed rows. -/
def parseEmployees : List (List String) → Option (List Employee)
  | [] => some []
  | fs :: rest =>
      match parseEmployee fs, parseEmployees rest with
      | some e, some es => some (e :: es)
      | _, _ => none

/-- The export `to_csv(index=False)`: header row plus one row per record. -/
def toCsv (rows : List Employee) : String :=
  String.mk (joinRecsL
    ((headerFields :: rows.map toFields).map (fun r => r.map String.data)))

/-- Modelled from the spec: re-import the exported CSV text — read the rows,
check the header, rebuild the records. -/
def parseCsv (s : String) : Option (List Employee) :=
  match parseRecs s.data with
  | none => none
  | some [] => none
  | some (hdr :: recs) =>
      if hdr = headerFields then parseEmployees recs else none

/-- After one cell, well-formed CSV text continues with a comma, a line feed,
or ends. -/
def sepStart : List Char → Prop
  | [] => True
  | c :: _ => c = ',' ∨ c = '\n'

/-- After one row, well-formed CSV text continues with a line feed or ends. -/
def nlStart : List Char → Prop
  | [] => True
  | c :: _ => c = '\n'

/-- The text following a closing quote never begins with a quote. -/
def headNotQuote : List Char → Prop
  | [] => True
  | c :: _ => c ≠ '"'

/-! ### Concrete data for the spec's scenarios -/

/-- Scenario record 1: `{id: 1, dept: "Sales", income: 5000, attrition: "Yes"}`. -/
def empSales : Employee :=
  { department := "Sales", jobRole := "Sales Executive", educationField := "Marketing",
    overTime := "Yes", attrition := "Yes", workLifeBalance := 2, jobLevel := 1,
    age := 30, monthlyIncome := 5000, jobSatisfaction := 3, distanceFromHome := 5,
    yearsAtCompany := 2, employeeNumber := 1 }

/-- Scenario record 2: `{id: 2, dept: "R&D", income: 9000, attrition: "No"}`. -/
def empRnD : Employee :=
  { department := "Research & Development", jobRole := "Research Scientist",
    educationField := "Life Sciences", overTime := "No", attrition := "No",
    workLifeBalance := 3, jobLevel := 2, age := 40, monthlyIncome := 9000,
    jobSatisfaction := 4, distanceFromHome := 10, yearsAtCompany := 6,
    employeeNumber := 2 }

/-- The two-record scenario data set. -/
def dfEx : List Employee := [empSales, empRnD]

/-- Scenario criteria: department restricted to Sales, identifier search `"2"`
(the identifier override must win over the department restriction). -/
def critSearch : Criteria :=
  { searchId := "2", deptFilter := ["Sales"],
    roleFilter := ["Sales Executive", "Research Scientist"],
    eduFilter := ["Marketing", "Life Sciences"],
    salaryLo := 0, salaryHi := 10000 }

/-- Scenario criteria: no identifier, department restricted to Sales. -/
def critEmpty : Criteria :=
  { searchId := "", deptFilter := ["Sales"],
    roleFilter := ["Sales Executive", "Research Scientist"],
    eduFilter := ["Marketing", "Life Sciences"],
    salaryLo := 0, salaryHi := 10000 }

/-- Scenario criteria: income range `[20000, 30000]`, which no record meets. -/
def critStrict : Criteria :=
  { searchId := "", deptFilter := ["Sales", "Research & Development"],
    roleFilter := ["Sales Executive", "Research Scientist"],
    eduFilter := ["Marketing", "Life Sciences"],
    salaryLo := 20000, salaryHi := 30000 }

/-! ### Sanity examples -/

example : natToStr 0 = "0" := by rfl
example : natToStr 2 = "2" := by rfl
example : natToStr 1035 = "1035" := by rfl
example : strToNat "1035" = some 1035 := by rfl
example : attr_rate [] = none := by rfl

/-! ### Correctness of the decimal rendering -/

theorem digVal_digitChar : ∀ m, m < 10 → digVal (Nat.digitChar m) = m := by decide

theorem isDigit_digitChar : ∀ m, m < 10 → (Nat.digitChar m).isDigit = true := by decide

theorem foldl_natToCharsGo (fuel : Nat) : ∀ n a, n ≤ fuel →
    (natToCharsGo fuel n).foldl (fun x c => x * 10 + digVal c) a =
      a * 10 ^ (natToCharsGo fuel n).length + n := by
  induction fuel with
  | zero =>
      intro n a h
      interval_cases n
      simp [natToCharsGo]
  | succ fuel ih =>
      intro n a h
      by_cases hn : n = 0
      · subst hn; simp [natToCharsGo]
      · have hlt : n / 10 < n := Nat.div_lt_self (by omega) (by omega)
        have hdiv : n / 10 ≤ fuel := by omega
        rw [natToCharsGo, if_neg hn, List.foldl_append, ih (n / 10) a hdiv]
        simp only [List.foldl_cons, List.foldl_nil, List.length_append,
          List.length_cons, List.length_nil]
        rw [digVal_digitChar (n % 10) (Nat.mod_lt n (by omega))]
        rw [pow_succ, ← mul_assoc]
        generalize a * 10 ^ (natToCharsGo fuel (n / 10)).length = k
        omega

theorem all_isDigit_natToCharsGo (fuel : Nat) : ∀ n,
    (natToCharsGo fuel n).all Char.isDigit = true := by
  induction fuel with
  | zero => intro n; rfl
  | succ fuel ih =>
      intro n
      by_cases hn : n = 0
      · subst hn; rfl
      · rw [natToCharsGo, if_neg hn, List.all_append, ih (n / 10)]
        simp [isDigit_digitChar (n % 10) (Nat.mod_lt n (by omega))]

theorem natToCharsGo_ne_nil (fuel n : Nat) (hn : n ≠ 0) :
    natToCharsGo (fuel + 1) n ≠ [] := by
  rw [natToCharsGo, if_neg hn]
  simp

theorem charsToNat_natToChars (n : Nat) : charsToNat (natToChars n) = some n := by
  by_cases hn : n = 0
  · subst hn; decide
  · rw [natToChars, if_neg hn, charsToNat,
      if_pos ⟨natToCharsGo_ne_nil n n hn, all_isDigit_natToCharsGo (n + 1) n⟩,
      foldl_natToCharsGo (n + 1) n 0 (by omega)]
    simp

theorem strToNat_natToStr (n : Nat) : strToNat (natToStr n) = some n :=
  charsToNat_natToChars n

theorem natToStr_inj {m n : Nat} (h : natToStr m = natToStr n) : m = n := by
  have hdata : natToChars m = natToChars n := congrArg String.data h
  have hm := charsToNat_natToChars m
  rw [hdata, charsToNat_natToChars n] at hm
  exact (Option.some.inj hm).symm

/-! ### Correctness of the CSV serialization -/

theorem parseBare_clean (f : List Char) (hf : needsQuoteL f = false)
    (rest : List Char) (hrest : sepStart rest) :
    parseBare (f ++ rest) = (f, rest) := by
  induction f with
  | nil =>
      cases rest with
      | nil => rfl
      | cons c r =>
          rcases hrest with h | h <;> subst h <;> simp [parseBare]
  | cons c f ih =>
      rw [needsQuoteL] at hf
      have h1 := Bool.or_eq_false_iff.mp hf
      have h2 := Bool.or_eq_false_iff.mp h1.1
      have h3 := Bool.or_eq_false_iff.mp h2.1
      have h4 := Bool.or_eq_false_iff.mp h3.1
      have hcond : (c = ',' || c = '\n') = false :=
        Bool.or_eq_false_iff.mpr ⟨h4.1, h3.2⟩
      rw [List.cons_append, parseBare, hcond]
      simp only [Bool.false_eq_true, if_false, ih h1.2]

theorem parseQuoted_escape (f : List Char) : ∀ rest : List Char,
    headNotQuote rest → parseQuoted (escapeL f ++ '"' :: rest) = some (f, rest) := by
  induction f with
  | nil =>
      intro rest hrest
      cases rest with
      | nil => rfl
      | cons c2 r =>
          have hc2 : c2 ≠ '"' := hrest
          rw [escapeL, List.nil_append, parseQuoted]
          simp [hc2]
  | cons c f ih =>
      intro rest hrest
      by_cases hc : c = '"'
      · subst hc
        rw [escapeL, if_pos rfl, List.cons_append, List.cons_append, parseQuoted]
        simp [ih rest hrest]
      · rw [escapeL, if_neg hc, List.cons_append]
        rcases hEl : escapeL f ++ '"' :: rest with _ | ⟨c2, r⟩
        · exact absurd hEl (by simp)
        · rw [parseQuoted, if_neg hc, ← hEl, ih rest hrest]
          rfl

theorem parseField_render (s : List Char) (rest : List Char) (hrest : sepStart rest) :
    parseField (renderFieldL s ++ rest) = some (s, rest) := by
  have hnq : headNotQuote rest := by
    cases rest with
    | nil => trivial
    | cons c r =>
        rcases hrest with h | h <;> subst h
        · show (',' : Char) ≠ '"'
          decide
        · show ('\n' : Char) ≠ '"'
          decide
  rw [renderFieldL]
  by_cases hq : needsQuoteL s = true
  · rw [if_pos hq, List.cons_append, parseField, if_pos rfl, List.append_assoc,
      List.singleton_append, parseQuoted_escape s rest hnq]
  · rw [if_neg hq]
    cases s with
    | nil =>
        rw [List.nil_append]
        cases rest with
        | nil => rfl
        | cons c r =>
            rcases hrest with h | h <;> subst h <;> rw [parseField] <;>
              simp [parseBare]
    | cons c s =>
        have hf : needsQuoteL (c :: s) = false := Bool.eq_false_iff.mpr hq
        have hf2 := hf
        rw [needsQuoteL] at hf2
        have h1 := Bool.or_eq_false_iff.mp hf2
        have h2 := Bool.or_eq_false_iff.mp h1.1
        have h3 := Bool.or_eq_false_iff.mp h2.1
        have h4 := Bool.or_eq_false_iff.mp h3.1
        have hcq : ¬(c = '"') := of_decide_eq_false h4.2
        rw [List.cons_append, parseField, if_neg hcq, ← List.cons_append,
          parseBare_clean (c :: s) hf rest hrest]

theorem renderRecordL_length : ∀ fs : List (List Char),
    fs.length ≤ (renderRecordL fs).length + 1 := by
  intro fs
  induction fs with
  | nil => simp
  | cons f fs ih =>
      cases fs with
      | nil => simp [renderRecordL]
      | cons g gs =>
          rw [show renderRecordL (f :: g :: gs) =
              renderFieldL f ++ ',' :: renderRecordL (g :: gs) from rfl]
          simp only [List.length_append, List.length_cons] at ih ⊢
          omega

theorem parseRecordAux_render : ∀ (fs : List (List Char)) (fuel : Nat),
    fs ≠ [] → fs.length ≤ fuel → ∀ rest : List Char, nlStart rest →
    parseRecordAux fuel (renderRecordL fs ++ rest) =
      some (fs.map String.mk, rest) := by
  intro fs
  induction fs with
  | nil => intro fuel h; exact absurd rfl h
  | cons f fs ih =>
      intro fuel _ hfuel rest hrest
      obtain ⟨fuel, rfl⟩ : ∃ f2, fuel = f2 + 1 := ⟨fuel - 1, by
        simp only [List.length_cons] at hfuel
        omega⟩
      cases fs with
      | nil =>
          have hsep : sepStart rest := by
            cases rest with
            | nil => trivial
            | cons c r => exact Or.inr hrest
          rw [renderRecordL, parseRecordAux, parseField_render f rest hsep]
          cases rest with
          | nil => rfl
          | cons c r =>
              have hc : c = '\n' := hrest
              subst hc
              simp
      | cons g gs =>
          have hre : renderRecordL (f :: g :: gs) ++ rest =
              renderFieldL f ++ (',' :: (renderRecordL (g :: gs) ++ rest)) := by
            rw [show renderRecordL (f :: g :: gs) =
                renderFieldL f ++ ',' :: renderRecordL (g :: gs) from rfl]
            simp
          have hsep : sepStart (',' :: (renderRecordL (g :: gs) ++ rest)) := Or.inl rfl
          have hih := ih fuel (by simp) (by
            simp only [List.length_cons] at hfuel ⊢
            omega) rest hrest
          rw [hre, parseRecordAux,
            parseField_render f (',' :: (renderRecordL (g :: gs) ++ rest)) hsep]
          simp [hih]

theorem parseRecord_render (fs : List (List Char)) (hne : fs ≠ [])
    (rest : List Char) (hrest : nlStart rest) :
    parseRecord (renderRecordL fs ++ rest) = some (fs.map String.mk, rest) := by
  apply parseRecordAux_render fs _ hne _ rest hrest
  have := renderRecordL_length fs
  simp only [List.length_append]
  omega

theorem length_joinRecsL : ∀ rs : List (List (List Char)),
    rs.length ≤ (joinRecsL rs).length := by
  intro rs
  induction rs with
  | nil => simp [joinRecsL]
  | cons r rs ih =>
      rw [joinRecsL]
      simp only [List.length_append, List.length_cons]
      omega

theorem parseRecsAux_render : ∀ (rs : List (List (List Char))) (fuel : Nat),
    (∀ r ∈ rs, r ≠ []) → rs.length < fuel →
    parseRecsAux fuel (joinRecsL rs) =
      some (rs.map (fun r => r.map String.mk)) := by
  intro rs
  induction rs with
  | nil =>
      intro fuel _ hfuel
      obtain ⟨fuel, rfl⟩ : ∃ f2, fuel = f2 + 1 := ⟨fuel - 1, by omega⟩
      rfl
  | cons r rs ih =>
      intro fuel hall hfuel
      obtain ⟨fuel, rfl⟩ : ∃ f2, fuel = f2 + 1 := ⟨fuel - 1, by
        simp only [List.length_cons] at hfuel
        omega⟩
      rw [joinRecsL, parseRecsAux]
      have hne : ¬(renderRecordL r ++ '\n' :: joinRecsL rs = []) := by simp
      have hnl : nlStart ('\n' :: joinRecsL rs) := rfl
      have hih := ih fuel (fun x hx => hall x (by simp [hx])) (by
        simp only [List.length_cons] at hfuel ⊢
        omega)
      rw [if_neg hne, parseRecord_render r (hall r (by simp)) ('\n' :: joinRecsL rs) hnl]
      simp [hih]

theorem parseRecs_render (rs : List (List (List Char))) (hall : ∀ r ∈ rs, r ≠ []) :
    parseRecs (joinRecsL rs) = some (rs.map (fun r => r.map String.mk)) := by
  apply parseRecsAux_render rs _ hall
  have := length_joinRecsL rs
  omega

theorem parseEmployee_toFields (e : Employee) :
    parseEmployee (toFields e) = some e := by
  simp [parseEmployee, toFields, strToNat_natToStr]

theorem parseEmployees_toFields (rows : List Employee) :
    parseEmployees (rows.map toFields) = some rows := by
  induction rows with
  | nil => rfl
  | cons e rows ih =>
      rw [List.map_cons, parseEmployees, parseEmployee_toFields, ih]

theorem map_mk_map_data (l : List String) : (l.map String.data).map String.mk = l := by
  induction l with
  | nil => rfl
  | cons s l ih => simp only [List.map_cons, ih]

theorem map_map_mk_data (Y : List (List String)) :
    (Y.map (fun r => r.map String.data)).map (fun r => r.map String.mk) = Y := by
  induction Y with
  | nil => rfl
  | cons r Y ih => simp only [List.map_cons, ih, map_mk_map_data]

/-! ### Helper lemmas about the filter and the grouped counts -/

theorem filter_idem {α : Type} (p : α → Bool) (l : List α) :
    (l.filter p).filter p = l.filter p := by
  induction l with
  | nil => rfl
  | cons a l ih => by_cases h : p a = true <;> simp [List.filter_cons, h, ih]

theorem filtered_df_search (df : List Employee) (c : Criteria)
    (h : c.searchId ≠ "") :
    filtered_df df c =
      df.filter (fun r => decide (natToStr r.employeeNumber = c.searchId)) := by
  rw [filtered_df, if_neg h]

theorem filtered_df_nosearch (df : List Employee) (c : Criteria)
    (h : c.searchId = "") :
    filtered_df df c = df.filter (passesFilters c) := by
  rw [filtered_df, if_pos h]

theorem groupCountsBy_keys_sorted {κ : Type} [DecidableEq κ] (le : κ → κ → Prop)
    [DecidableRel le] [IsTotal κ le] [IsTrans κ le] (key : Employee → κ)
    (rows : List Employee) :
    ((groupCountsBy le key rows).map Prod.fst).Sorted le := by
  rw [groupCountsBy, List.map_map]
  have hcomp : (Prod.fst ∘ fun k : κ =>
      (k, rows.countP (fun r => decide (key r = k)))) = fun k : κ => k := rfl
  rw [hcomp, List.map_id']
  exact List.sorted_insertionSort le _

theorem groupCountsBy_counts_sum {κ : Type} [DecidableEq κ] (le : κ → κ → Prop)
    [DecidableRel le] (key : Employee → κ) (rows : List Employee) :
    ((groupCountsBy le key rows).map Prod.snd).sum = rows.length := by
  rw [groupCountsBy, List.map_map]
  have hcomp : (Prod.snd ∘ fun k : κ =>
      (k, rows.countP (fun r => decide (key r = k)))) =
      fun k : κ => rows.countP (fun r => decide (key r = k)) := rfl
  rw [hcomp]
  have hperm := (List.perm_insertionSort le (rows.map key).dedup).map
      (fun k : κ => rows.countP (fun r => decide (key r = k)))
  rw [hperm.sum_eq]
  have hfun : (fun k : κ => rows.countP (fun r => decide (key r = k))) =
      fun k : κ => (rows.map key).count k := by
    funext k
    show rows.countP (fun r => decide (key r = k)) =
      (rows.map key).countP (fun x => x == k)
    rw [List.countP_map]
    rfl
  rw [hfun, List.sum_map_count_dedup_eq_length, List.length_map]

/-! ### The claims -/

/-- C1 counterexample: strict filters produce the empty filtered view; the
summary computation then yields NaN (`none`) — not a defined zero/neutral
value — for the attrition rate and for both mean fields, refuting the claim
that no NaN is propagated into the presented metrics. -/
theorem C1_counterexample :
    filtered_df dfEx critStrict = [] ∧
    ¬((summarize (filtered_df dfEx critStrict)).attritionRate ≠ none ∧
      (summarize (filtered_df dfEx critStrict)).avgSatisfaction ≠ none ∧
      (summarize (filtered_df dfEx critStrict)).avgAge ≠ none) := by
  decide

/-- C1 (amended): summarizing the empty filtered view raises no exception and
reports total 0, but the attrition rate and the mean fields evaluate to NaN
(`none`), and that NaN is what reaches the presented metrics. -/
theorem C1_empty_summary_nan :
    (summarize ([] : List Employee)).total = 0 ∧
    (summarize ([] : List Employee)).attritionRate = none ∧
    (summarize ([] : List Employee)).avgSatisfaction = none ∧
    (summarize ([] : List Employee)).avgAge = none ∧
    (generate_pdf ([] : List Employee)).attritionRate = none ∧
    (generate_pdf ([] : List Employee)).avgAge = none ∧
    (generate_pdf ([] : List Employee)).avgSat = none := by
  decide

/-- C2: with a non-empty identifier the filter returns exactly the records
whose identifier stringifies equal to it, ignores the other four criteria
entirely, and — when identifiers are unique per record — returns at most one
record. -/
theorem C2_identifier_override (df : List Employee) (c : Criteria)
    (h : c.searchId ≠ "") :
    filtered_df df c =
      df.filter (fun r => decide (natToStr r.employeeNumber = c.searchId)) ∧
    (∀ r ∈ filtered_df df c, natToStr r.employeeNumber = c.searchId) ∧
    (∀ c2 : Criteria, c2.searchId = c.searchId →
      filtered_df df c2 = filtered_df df c) ∧
    ((df.map Employee.employeeNumber).Nodup → (filtered_df df c).length ≤ 1) := by
  refine ⟨filtered_df_search df c h, ?_, ?_, ?_⟩
  · intro r hr
    rw [filtered_df_search df c h] at hr
    have hp := List.of_mem_filter hr
    exact of_decide_eq_true hp
  · intro c2 h2
    rw [filtered_df_search df c h, filtered_df_search df c2 (h2 ▸ h), h2]
  · intro hnd
    rw [filtered_df_search df c h]
    rcases hl : df.filter (fun r => decide (natToStr r.employeeNumber = c.searchId))
      with _ | ⟨a, t⟩
    · rw [hl]
      simp
    · cases t with
      | nil =>
          rw [hl]
          simp
      | cons b t2 =>
          exfalso
          have hmem_a : a ∈ df.filter
              (fun r => decide (natToStr r.employeeNumber = c.searchId)) := by
            rw [hl]; exact List.mem_cons_self a (b :: t2)
          have hmem_b : b ∈ df.filter
              (fun r => decide (natToStr r.employeeNumber = c.searchId)) := by
            rw [hl]; exact List.mem_cons_of_mem a (List.mem_cons_self b t2)
          have hpa := List.of_mem_filter hmem_a
          have hpb := List.of_mem_filter hmem_b
          have ha := of_decide_eq_true hpa
          have hb := of_decide_eq_true hpb
          have hen : a.employeeNumber = b.employeeNumber :=
            natToStr_inj (ha.trans hb.symm)
          have hsub0 : (a :: b :: t2).Sublist df := by
            rw [← hl]; exact List.filter_sublist df
          have hsub := hsub0.map Employee.employeeNumber
          have hnd2 := hnd.sublist hsub
          rw [List.map_cons, List.map_cons, List.nodup_cons] at hnd2
          exact hnd2.1 (by rw [hen]; exact List.mem_cons_self _ _)

/-- C2 witness: on the scenario data, searching id `"2"` with the department
restricted to Sales still returns record 2 (the identifier override wins). -/
theorem C2_witness :
    critSearch.searchId ≠ "" ∧
    (filtered_df dfEx critSearch =
      dfEx.filter (fun r => decide (natToStr r.employeeNumber = critSearch.searchId)) ∧
    (∀ r ∈ filtered_df dfEx critSearch, natToStr r.employeeNumber = critSearch.searchId) ∧
    (∀ c2 : Criteria, c2.searchId = critSearch.searchId →
      filtered_df dfEx c2 = filtered_df dfEx critSearch) ∧
    ((dfEx.map Employee.employeeNumber).Nodup → (filtered_df dfEx critSearch).length ≤ 1)) ∧
    filtered_df dfEx critSearch = [empRnD] :=
  ⟨by decide, C2_identifier_override dfEx critSearch (by decide), by decide⟩

/-- C3: with an empty identifier, the filter returns exactly the records whose
department, role and education field lie in the respective allowed sets and
whose monthly income is within the inclusive range; an empty allowed set for
any category yields the empty result. -/
theorem C3_conjunctive_filter (df : List Employee) (c : Criteria)
    (h : c.searchId = "") :
    filtered_df df c = df.filter (passesFilters c) ∧
    (∀ r : Employee, r ∈ filtered_df df c ↔
      r ∈ df ∧ r.department ∈ c.deptFilter ∧ r.jobRole ∈ c.roleFilter ∧
      r.educationField ∈ c.eduFilter ∧
      c.salaryLo ≤ r.monthlyIncome ∧ r.monthlyIncome ≤ c.salaryHi) ∧
    ((c.deptFilter = [] ∨ c.roleFilter = [] ∨ c.eduFilter = []) →
      filtered_df df c = []) := by
  have heq := filtered_df_nosearch df c h
  refine ⟨heq, ?_, ?_⟩
  · intro r
    rw [heq, List.mem_filter]
    simp [passesFilters, and_assoc]
  · intro hempty
    rw [heq]
    rw [List.filter_eq_nil_iff]
    intro r hr hpr
    simp only [passesFilters, Bool.and_eq_true, decide_eq_true_eq] at hpr
    rcases hempty with he | he | he <;> rw [he] at hpr <;>
      simp only [List.not_mem_nil] at hpr <;> tauto

/-- C3 witness: on the scenario data with departments restricted to Sales and
income range `[0, 10000]`, the filtered view is exactly record 1. -/
theorem C3_witness :
    critEmpty.searchId = "" ∧
    (filtered_df dfEx critEmpty = dfEx.filter (passesFilters critEmpty) ∧
    (∀ r : Employee, r ∈ filtered_df dfEx critEmpty ↔
      r ∈ dfEx ∧ r.department ∈ critEmpty.deptFilter ∧
      r.jobRole ∈ critEmpty.roleFilter ∧
      r.educationField ∈ critEmpty.eduFilter ∧
      critEmpty.salaryLo ≤ r.monthlyIncome ∧
      r.monthlyIncome ≤ critEmpty.salaryHi) ∧
    ((critEmpty.deptFilter = [] ∨ critEmpty.roleFilter = [] ∨
      critEmpty.eduFilter = []) → filtered_df dfEx critEmpty = [])) ∧
    filtered_df dfEx critEmpty = [empSales] :=
  ⟨rfl, C3_conjunctive_filter dfEx critEmpty rfl, by decide⟩

/-- C4: the filter is idempotent — re-applying it with the same criteria to
its own output returns that output unchanged. -/
theorem C4_filter_idempotent (df : List Employee) (c : Criteria) :
    filtered_df (filtered_df df c) c = filtered_df df c := by
  by_cases h : c.searchId = ""
  · rw [filtered_df_nosearch _ _ h, filtered_df_nosearch _ _ h, filter_idem]
  · rw [filtered_df_search _ _ h, filtered_df_search _ _ h, filter_idem]

/-- C5: the total reported by the summary over a filtered view is the number
of records in that view. -/
theorem C5_total_is_length (df : List Employee) (c : Criteria) :
    (summarize (filtered_df df c)).total = (filtered_df df c).length := rfl

/-- C7: the narrative insight strings in the report payload are independent of
the filtered view — any two runs produce the identical fixed list, verbatim. -/
theorem C7_insights_static (rows1 rows2 : List Employee) :
    (generate_pdf rows1).insights = (generate_pdf rows2).insights ∧
    (generate_pdf rows1).insights = [
      "Employees working overtime show significantly higher attrition.",
      "Highest churn observed in the first 2 years of employment.",
      "Lower monthly income strongly correlates with employee exit.",
      "Longer distance from home increases attrition risk.",
      "Junior-level roles require focused retention strategies."] :=
  ⟨rfl, rfl⟩

/-- C6: exporting any record set as header-included, comma-separated CSV text
and re-parsing that text reproduces the record set field for field. -/
theorem C6_csv_round_trip (rows : List Employee) :
    parseCsv (toCsv rows) = some rows := by
  have hall : ∀ r ∈ (headerFields :: rows.map toFields).map
      (fun q => q.map String.data), r ≠ [] := by
    intro r hr
    obtain ⟨q, hq, rfl⟩ := List.mem_map.mp hr
    rcases List.mem_cons.mp hq with rfl | hq2
    · simp [headerFields]
    · obtain ⟨e, _, rfl⟩ := List.mem_map.mp hq2
      simp [toFields]
  have hdata : (toCsv rows).data = joinRecsL
      ((headerFields :: rows.map toFields).map (fun q => q.map String.data)) := rfl
  rw [parseCsv, hdata, parseRecs_render _ hall, map_map_mk_data]
  simp [parseEmployees_toFields]

/-- C8: the grouped count aggregates behind charts 4 and 8 emit their category
values in a deterministic, stable order — equal inputs give equal output
sequences, and the emitted key sequence is sorted in the canonical
lexicographic order. -/
theorem C8_grouped_order_deterministic (rows1 rows2 : List Employee)
    (h : rows1 = rows2) :
    ot_data rows1 = ot_data rows2 ∧ yac_data rows1 = yac_data rows2 ∧
    ((ot_data rows1).map Prod.fst).Sorted lexLE ∧
    ((yac_data rows1).map Prod.fst).Sorted lexLE := by
  subst h
  exact ⟨rfl, rfl, groupCountsBy_keys_sorted lexLE _ rows1,
    groupCountsBy_keys_sorted lexLE _ rows1⟩

/-- C8 witness: the grouped aggregates of the scenario data are deterministic
and their key sequences are sorted. -/
theorem C8_witness :
    dfEx = dfEx ∧
    (ot_data dfEx = ot_data dfEx ∧ yac_data dfEx = yac_data dfEx ∧
    ((ot_data dfEx).map Prod.fst).Sorted lexLE ∧
    ((yac_data dfEx).map Prod.fst).Sorted lexLE) :=
  ⟨rfl, C8_grouped_order_deterministic dfEx dfEx rfl⟩

/-- C9: a rerun of the dashboard body never mutates the loaded record set: the
raw data is unchanged, and the filtered view and metrics are pure derivations
from it (the filtered view is a sublist of the raw data, never an in-place
edit). -/
theorem C9_rerun_pure (s : DashState) (c : Criteria) :
    (rerun s c).raw = s.raw ∧
    (rerun s c).filtered = filtered_df s.raw c ∧
    (rerun s c).metrics = summarize (filtered_df s.raw c) ∧
    (filtered_df s.raw c).Sublist s.raw := by
  refine ⟨rfl, rfl, rfl, ?_⟩
  by_cases h : c.searchId = ""
  · rw [filtered_df_nosearch _ _ h]
    exact List.filter_sublist s.raw
  · rw [filtered_df_search _ _ h]
    exact List.filter_sublist s.raw

/-- C10: each grouped count aggregate covers the filtered view exactly — the
per-group counts of the overtime-by-attrition grouping sum to the number of
records, and likewise for the years-at-company-by-attrition grouping. -/
theorem C10_group_counts_sum (rows : List Employee) :
    ((ot_data rows).map Prod.snd).sum = rows.length ∧
    ((yac_data rows).map Prod.snd).sum = rows.length :=
  ⟨groupCountsBy_counts_sum lexLE _ rows, groupCountsBy_counts_sum lexLE _ rows⟩
